import Mathlib

/-!
Verification development for the InfoGenius Vision browser application.

The repository's logic is shallowly embedded below:
  - `getGCSConfig` models `src/services/storageService.ts` (configuration
    resolver over environment variables and localStorage overrides);
  - `uploadToGCS` models the object-storage uploader in the same file, with
    the HTTP layer abstracted as an `Except`-valued environment and the
    issued requests recorded in a trace;
  - the research-response parsing (`parseFacts`, `imagePromptOpt`,
    `dedupByUrl`) models `researchTopicForPrompt` in the Gemini service;
  - `handleGenerate` / `handleEdit` model the application controller in
    `src/App.tsx`, with the network calls abstracted as `Except`-valued
    inputs and a trace of the calls that were issued.

JavaScript strings are modelled by `String`; absent values (`undefined` /
`null`) by `Option String`; JS truthiness of a string value by `jsTruthy`.
-/

/-- Truthiness of a JS string-or-absent value: `null`/`undefined` and the
empty string are falsy, every other string is truthy. -/
def jsTruthy : Option String → Bool
  | none => false
  | some s => !(s == "")

/-- JS `a || b` on string-or-absent values: `a` when truthy, else `b`. -/
def jsOr (a b : Option String) : Option String :=
  if jsTruthy a then a else b

/-- JS `a || b` where `b` is already a plain string (e.g. `a || ''`). -/
def jsOrStr (a : Option String) (b : String) : String :=
  if jsTruthy a then a.getD "" else b

/-- Result record of the configuration resolver (`getGCSConfig`). -/
structure GCSConfig where
  bucket : String
  token : String
  isConfigured : Bool
  source : String
  deriving DecidableEq

/-- Model of `getGCSConfig` from `src/services/storageService.ts`:
`envBucket = process.env.GCS_BUCKET_NAME`,
`envToken = process.env.GCS_ACCESS_TOKEN || process.env.GCS_CREDENTIALS`,
`localBucket`/`localToken` are the localStorage overrides. -/
def getGCSConfig (envBucketName envAccessToken envCredentials
    localBucket localToken : Option String) : GCSConfig :=
  let envBucket := envBucketName
  let envToken := jsOr envAccessToken envCredentials
  { bucket := jsOrStr localBucket (jsOrStr envBucket "")
    token := jsOrStr localToken (jsOrStr envToken "")
    isConfigured := (jsTruthy localBucket || jsTruthy envBucket)
      && (jsTruthy localToken || jsTruthy envToken)
    source :=
      if jsTruthy localBucket || jsTruthy localToken then "manual"
      else if jsTruthy envBucket || jsTruthy envToken then "env"
      else "none" }

/-- Modelled from the spec (section 4.1) for comparison with the source:
prefer an override over the environment value for each field;
`isConfigured` iff a bucket and a token are each resolved from either
source; `source` is manual / env / none by presence of the inputs. -/
def gcsConfigSpec (ovBucket ovToken envBucket envToken : Option String) :
    GCSConfig :=
  { bucket :=
      match ovBucket with
      | some b => b
      | none => match envBucket with | some b => b | none => ""
    token :=
      match ovToken with
      | some t => t
      | none => match envToken with | some t => t | none => ""
    isConfigured := (ovBucket.isSome || envBucket.isSome)
      && (ovToken.isSome || envToken.isSome)
    source :=
      if ovBucket.isSome || ovToken.isSome then "manual"
      else if envBucket.isSome || envToken.isSome then "env"
      else "none" }

/-- A well-formed optional configuration value: either absent or a
non-empty string (in the application, overrides are removed from storage
rather than stored empty, and absent environment variables are absent). -/
def WfOpt (o : Option String) : Prop := o ≠ some ""

/-! ## Object storage uploader (`uploadToGCS` in storageService.ts) -/

/-- An HTTP response as seen by the uploader: status code and body text.
`response.ok` in the browser corresponds to a status in [200, 300). -/
structure HttpResponse where
  status : Nat
  body : String
  deriving DecidableEq

/-- The one upload request `uploadToGCS` issues, as recorded in its trace:
target URL, Authorization header, and Content-Type header. -/
structure UploadRequest where
  url : String
  authorization : String
  contentType : String
  deriving DecidableEq

/-- Model of the anchored regex `^data:([^;]+);base64,`: the captured MIME
type when the data URI is well-formed, else `none`. -/
def matchDataUriMime (s : List Char) : Option (List Char) :=
  if ("data:".data).isPrefixOf s then
    let rest := s.drop 5
    let mime := rest.takeWhile (fun c => !(c == ';'))
    if 0 < mime.length && (";base64,".data).isPrefixOf (rest.drop mime.length)
    then some mime else none
  else none

/-- MIME detection in `uploadToGCS`: the captured group of the data-URI
regex, defaulting to `image/png`. -/
def mimeOf (base64Data : String) : String :=
  match matchDataUriMime base64Data.data with
  | some m => String.mk m
  | none => "image/png"

/-- The deterministic upload URL: bucket endpoint plus object name
`infographic_<id>.png`. -/
def uploadUrlOf (cfg : GCSConfig) (id : String) : String :=
  "https://storage.googleapis.com/upload/storage/v1/b/" ++ cfg.bucket
    ++ "/o?uploadType=media&name=" ++ ("infographic_" ++ id ++ ".png")

/-- The request `uploadToGCS` builds when configuration is resolved. -/
def uploadRequestOf (cfg : GCSConfig) (base64Data id : String) :
    UploadRequest :=
  { url := uploadUrlOf cfg id
    authorization := "Bearer " ++ cfg.token
    contentType := mimeOf base64Data }

/-- The `try` block of `uploadToGCS`: the upload fetch either throws (a
transport error), or yields a response; a non-2xx response is re-raised as
`GCS API error (status): body`. -/
def uploadAttempt (env : Except String HttpResponse) : Except String Bool :=
  match env with
  | Except.error e => Except.error e
  | Except.ok r =>
    if 200 ≤ r.status ∧ r.status < 300 then Except.ok true
    else Except.error ("GCS API error (" ++ toString r.status ++ "): "
      ++ r.body)

/-- Model of `uploadToGCS` from `src/services/storageService.ts`. The
returned `Except` is what the caller observes (an `error` would be an
escaped exception); the list records the upload requests issued. When the
configuration is unresolved the upload is skipped with `false`; otherwise
one request is issued and the surrounding `catch` converts any raised
error into a logged `false`. -/
def uploadToGCS (cfg : GCSConfig) (base64Data id : String)
    (env : Except String HttpResponse) :
    Except String Bool × List UploadRequest :=
  if !cfg.isConfigured then (Except.ok false, [])
  else
    match uploadAttempt env with
    | Except.ok b => (Except.ok b, [uploadRequestOf cfg base64Data id])
    | Except.error _e => (Except.ok false, [uploadRequestOf cfg base64Data id])

/-- Configured fixture used in witnesses. -/
def cfgDemo : GCSConfig :=
  { bucket := "b", token := "t", isConfigured := true, source := "manual" }

/-- Unconfigured fixture used in witnesses. -/
def cfgNone : GCSConfig :=
  { bucket := "", token := "", isConfigured := false, source := "none" }

/-! ## Generative research client: response parsing
(`researchTopicForPrompt` in the Gemini service) -/

/-- Case-insensitive test that `s` starts with the (lowercase) pattern. -/
def startsWithCI (pat s : List Char) : Bool :=
  (s.take pat.length).map Char.toLower == pat

/-- First case-insensitive occurrence of the (lowercase) pattern: returns
the suffix just after the matched occurrence, as a JS regex search does. -/
def findCI (pat : List Char) : List Char → Option (List Char)
  | [] => if startsWithCI pat [] then some [] else none
  | c :: rest =>
    if startsWithCI pat (c :: rest) then some ((c :: rest).drop pat.length)
    else findCI pat rest

/-- Characters before the first case-insensitive occurrence of the
(lowercase) pattern — the lazy group bounded by the lookahead
`(?=IMAGE_PROMPT:|$)`. -/
def takeUntilCI (pat : List Char) : List Char → List Char
  | [] => []
  | c :: rest =>
    if startsWithCI pat (c :: rest) then [] else c :: takeUntilCI pat rest

/-- JS `String.prototype.trim`: strip leading and trailing whitespace. -/
def trimChars (l : List Char) : List Char :=
  ((l.dropWhile Char.isWhitespace).reverse.dropWhile Char.isWhitespace).reverse

/-- JS `split('\n')` on the character list: the list of lines. -/
def splitLines : List Char → List (List Char)
  | [] => [[]]
  | c :: rest =>
    if c = '\n' then [] :: splitLines rest
    else
      match splitLines rest with
      | [] => [[c]]
      | h :: t => (c :: h) :: t

/-- JS `f.replace(/^-\s*/, '')`: drop one leading dash and the whitespace
following it; leave the line unchanged when it does not start with a dash. -/
def stripDash : List Char → List Char
  | '-' :: rest => rest.dropWhile Char.isWhitespace
  | l => l

/-- A bullet line as the facts parser normalises it: dash stripped, then
trimmed (the source maps `f => f.replace(/^-\s*/, '').trim()`). -/
def bulletOf (l : List Char) : List Char := trimChars (stripDash l)

/-- Model of `text.match(/FACTS:\s*([\s\S]*?)(?=IMAGE_PROMPT:|$)/i)`
followed by `.trim()`: the trimmed captured group, or empty when there is
no `FACTS:` section. -/
def extractFactsRaw (text : String) : List Char :=
  match findCI "facts:".data text.data with
  | none => []
  | some rest =>
    trimChars (takeUntilCI "image_prompt:".data
      (rest.dropWhile Char.isWhitespace))

/-- The lines of the trimmed `FACTS:` section. -/
def factsLines (text : String) : List (List Char) :=
  splitLines (extractFactsRaw text)

/-- The facts parser of `researchTopicForPrompt`: split the section into
lines, strip dashes and trim, drop empties, cap at 5. -/
def parseFacts (text : String) : List String :=
  ((((factsLines text).map bulletOf).filter
      (fun f => 0 < f.length)).take 5).map (fun l => String.mk l)

/-- Model of `text.match(/IMAGE_PROMPT:\s*([\s\S]*?)$/i)` followed by
`.trim()` on the captured group: `none` when the section is absent. -/
def imagePromptOpt (text : String) : Option String :=
  match findCI "image_prompt:".data text.data with
  | none => none
  | some rest => some (String.mk (trimChars (rest.dropWhile Char.isWhitespace)))

/-- Audience levels from `types.ts` (the switch's default arm is reached
for any other value and is modelled by `general`). -/
inductive ComplexityLevel
  | elementary
  | highSchool
  | college
  | expert
  | general
  deriving DecidableEq

/-- Visual styles from `types.ts` (default arm modelled by `standard`). -/
inductive VisualStyle
  | minimalist
  | realistic
  | cartoon
  | vintage
  | futuristic
  | render3d
  | sketch
  | standard
  deriving DecidableEq

/-- `getLevelInstruction` from the Gemini service. -/
def getLevelInstruction : ComplexityLevel → String
  | ComplexityLevel.elementary =>
    "Target Audience: Elementary School (Ages 6-10). Style: Bright, simple, fun. Use large clear icons and very minimal text labels."
  | ComplexityLevel.highSchool =>
    "Target Audience: High School. Style: Standard Textbook. Clean lines, clear labels, accurate maps or diagrams. Avoid cartoony elements."
  | ComplexityLevel.college =>
    "Target Audience: University. Style: Academic Journal. High detail, data-rich, precise cross-sections or complex schematics."
  | ComplexityLevel.expert =>
    "Target Audience: Industry Expert. Style: Technical Blueprint/Schematic. Extremely dense detail, monochrome or technical coloring, precise annotations."
  | ComplexityLevel.general =>
    "Target Audience: General Public. Style: Clear and engaging."

/-- `getStyleInstruction` from the Gemini service. -/
def getStyleInstruction : VisualStyle → String
  | VisualStyle.minimalist =>
    "Aesthetic: Bauhaus Minimalist. Flat vector art, limited color palette (2-3 colors), reliance on negative space and simple geometric shapes."
  | VisualStyle.realistic =>
    "Aesthetic: Photorealistic Composite. Cinematic lighting, 8k resolution, highly detailed textures. Looks like a photograph."
  | VisualStyle.cartoon =>
    "Aesthetic: Educational Comic. Vibrant colors, thick outlines, expressive cel-shaded style."
  | VisualStyle.vintage =>
    "Aesthetic: 19th Century Scientific Lithograph. Engraving style, sepia tones, textured paper background, fine hatch lines."
  | VisualStyle.futuristic =>
    "Aesthetic: Cyberpunk HUD. Glowing neon blue/cyan lines on dark background, holographic data visualization, 3D wireframes."
  | VisualStyle.render3d =>
    "Aesthetic: 3D Isometric Render. Claymorphism or high-gloss plastic texture, studio lighting, soft shadows, looks like a physical model."
  | VisualStyle.sketch =>
    "Aesthetic: Da Vinci Notebook. Ink on parchment sketch, handwritten annotations style, rough but accurate lines."
  | VisualStyle.standard =>
    "Aesthetic: High-quality digital scientific illustration. Clean, modern, highly detailed."

/-- The synthesized prompt used when the `IMAGE_PROMPT:` section is
absent. -/
def fallbackPrompt (topic levelInstr styleInstr : String) : String :=
  "Create a detailed infographic about " ++ topic ++ ". " ++ levelInstr
    ++ " " ++ styleInstr

/-- The image prompt `researchTopicForPrompt` returns: the trimmed
`IMAGE_PROMPT:` capture, else the synthesized fallback. -/
def parseImagePrompt (text topic : String) (level : ComplexityLevel)
    (style : VisualStyle) : String :=
  match imagePromptOpt text with
  | some p => p
  | none =>
    fallbackPrompt topic (getLevelInstruction level) (getStyleInstruction style)

/-- A citation entry collected from grounding metadata. -/
structure SearchResultItem where
  title : String
  url : String
  deriving DecidableEq

/-- Updating one entry of the JS `Map`: an entry whose key equals `k` gets
the new value `v`; other entries are untouched. -/
def updEntry (k : String) (v : SearchResultItem)
    (p : String × SearchResultItem) : String × SearchResultItem :=
  if p.1 == k then (k, v) else p

/-- One `Map.set` step of `new Map(searchResults.map(item => [item.url,
item]))`: setting an existing key updates its value in place, a new key is
appended. -/
def insertAssoc (m : List (String × SearchResultItem)) (k : String)
    (v : SearchResultItem) : List (String × SearchResultItem) :=
  if m.any (fun p => p.1 == k) then m.map (updEntry k v)
  else m ++ [(k, v)]

/-- The JS `Map` keyed by URL, built in insertion order. -/
def buildUrlMap (items : List SearchResultItem) :
    List (String × SearchResultItem) :=
  items.foldl (fun m item => insertAssoc m item.url item) []

/-- `Array.from(new Map(searchResults.map(item => [item.url,
item])).values())`: deduplication of the citation entries by URL. -/
def dedupByUrl (items : List SearchResultItem) : List SearchResultItem :=
  (buildUrlMap items).map Prod.snd

/-- The research result assembled by `researchTopicForPrompt` from the
model response text and the grounding citation entries. -/
structure ResearchResult where
  imagePrompt : String
  facts : List String
  searchResults : List SearchResultItem
  deriving DecidableEq

/-- Pure core of `researchTopicForPrompt`: parse the response text and
deduplicate the grounding citation entries. -/
def researchTopicForPrompt (topic : String) (level : ComplexityLevel)
    (style : VisualStyle) (text : String)
    (items : List SearchResultItem) : ResearchResult :=
  { imagePrompt := parseImagePrompt text topic level style
    facts := parseFacts text
    searchResults := dedupByUrl items }

/-! ## C3: deduplication keeps the last occurrence per URL -/

/-- The entries of the URL map with a given key. -/
def entriesFor (u : String) (m : List (String × SearchResultItem)) :
    List (String × SearchResultItem) :=
  m.filter (fun p => p.1 == u)

/-- A map with at most one entry per key (the JS `Map` invariant). -/
def AtMostOne (m : List (String × SearchResultItem)) : Prop :=
  ∀ u, (entriesFor u m).length ≤ 1

/-- Every entry of the URL map carries its own URL as key. -/
def UrlKeyed (m : List (String × SearchResultItem)) : Prop :=
  ∀ p ∈ m, p.2.url = p.1

/-- Response fixture with seven bullet lines in its `FACTS:` section. -/
def factsDemoText : String :=
  "FACTS:\n- f1\n- f2\n- f3\n- f4\n- f5\n- f6\n- f7\nIMAGE_PROMPT:\nA diagram"

/-! ## C7: fallback image prompt -/

/-- Substring containment of whole strings. -/
def containsStr (s sub : String) : Prop := ∃ a b, s = a ++ sub ++ b

/-! ## Application controller (`handleGenerate` / `handleEdit` in App.tsx) -/

/-- JS `String.prototype.includes` (case-sensitive substring test). -/
def hasSubstr (pat : List Char) : List Char → Bool
  | [] => pat.isEmpty
  | c :: t => pat.isPrefixOf (c :: t) || hasSubstr pat t

/-- `s.includes(pat)` on strings. -/
def strIncludes (s pat : String) : Bool := hasSubstr pat.data s.data

/-- JS `s.trim()` on strings. -/
def jsTrim (s : String) : String := String.mk (trimChars s.data)

/-- The controller's entitlement-failure test:
`err.message && (err.message.includes("Requested entity was not found") ||
err.message.includes("404") || err.message.includes("403"))`. -/
def isEntitlementMsg (msg : String) : Bool :=
  !(msg == "") && (strIncludes msg "Requested entity was not found"
    || strIncludes msg "404" || strIncludes msg "403")

/-- Kind of a user-supplied context source. -/
inductive SourceKind
  | file
  | url
  deriving DecidableEq

/-- A user-supplied context source (file content or link). -/
structure ContextSource where
  id : String
  kind : SourceKind
  name : String
  content : String
  deriving DecidableEq

/-- A history entry (`GeneratedImage` in types.ts). Language, aspect ratio
and resolution are carried as their literal string values. -/
structure GeneratedImage where
  id : String
  data : String
  prompt : String
  timestamp : Nat
  level : ComplexityLevel
  style : VisualStyle
  language : String
  aspect : String
  resolution : String
  deriving DecidableEq

/-- The controller state: the `useState` cells of the `App` component that
the generation and edit cycles read or write. -/
structure AppState where
  topic : String
  activeImageId : Option String
  complexityLevel : ComplexityLevel
  visualStyle : VisualStyle
  language : String
  aspect : String
  resolution : String
  isLoading : Bool
  isSyncing : Bool
  loadingMessage : String
  loadingStep : Nat
  loadingFacts : List String
  error : Option String
  imageHistory : List GeneratedImage
  currentSearchResults : List SearchResultItem
  contextSources : List ContextSource
  hasApiKey : Bool
  deriving DecidableEq

/-- A network operation issued during a cycle, recorded in the trace. -/
inductive Call
  | research
  | genImage
  | edit
  | upload
  deriving DecidableEq

/-- Validation message set when both topic and context sources are empty. -/
def validationMsg : String :=
  "Please enter a topic or provide context (File/URL) to visualize."

/-- Access-denied message of the generate cycle. -/
def accessDeniedGenerateMsg : String :=
  "Access denied. The selected API key does not have access to the required models. Please select a project with billing enabled."

/-- Generic failure message of the generate cycle. -/
def serviceUnavailableMsg : String :=
  "The image generation service is temporarily unavailable. Please try again."

/-- Access-denied message of the edit cycle. -/
def accessDeniedEditMsg : String :=
  "Access denied. Please select a valid API key with billing enabled."

/-- Generic failure message of the edit cycle. -/
def modificationFailedMsg : String :=
  "Modification failed. Try a different command."

/-- `effectiveTopic` of `handleGenerate`: the trimmed topic, or the
synthesized sources prompt when the topic is empty and sources exist. -/
def effectiveTopicOf (s : AppState) : String :=
  let t := jsTrim s.topic
  if t = "" ∧ s.contextSources ≠ [] then
    "Create a comprehensive infographic visualizing the key concepts from the provided sources ("
      ++ String.intercalate ", " (s.contextSources.map (fun src => src.name))
      ++ ")."
  else t

/-- The history entry a successful generate cycle constructs. -/
def genImageOf (s : AppState) (now : Nat) (b64 : String) : GeneratedImage :=
  { id := toString now
    data := b64
    prompt := effectiveTopicOf s
    timestamp := now
    level := s.complexityLevel
    style := s.visualStyle
    language := s.language
    aspect := s.aspect
    resolution := s.resolution }

/-- The history entry a successful edit cycle constructs, reusing the
current image's generation parameters. -/
def editImageOf (cur : GeneratedImage) (now : Nat) (editPrompt b64 : String) :
    GeneratedImage :=
  { id := toString now
    data := b64
    prompt := editPrompt
    timestamp := now
    level := cur.level
    style := cur.style
    language := cur.language
    aspect := cur.aspect
    resolution := cur.resolution }

/-- The `catch` block shared by both cycles: entitlement failures get the
access-denied message and clear the has-credentials flag; every other
error gets the generic message. -/
def classifyError (s : AppState) (msg accessMsg genericMsg : String) :
    AppState :=
  if isEntitlementMsg msg then
    { s with error := some accessMsg, hasApiKey := false }
  else { s with error := some genericMsg }

/-- The `finally` block shared by both cycles. -/
def finallyStep (s : AppState) : AppState :=
  { s with isLoading := false, loadingStep := 0 }

/-- State after the leading `setXxx` calls of the generate cycle. -/
def researchingState (s : AppState) : AppState :=
  { s with
    isLoading := true, error := none, loadingStep := 1,
    loadingFacts := [], currentSearchResults := [],
    loadingMessage := "Researching..." }

/-- State after a successful research step of the generate cycle. -/
def designingState (s : AppState) (rr : ResearchResult) : AppState :=
  { s with
    loadingFacts := rr.facts,
    currentSearchResults := rr.searchResults, loadingStep := 2,
    loadingMessage := "Designing Infographic..." }

/-- Prepend a new history entry, mark it active, start the background
upload indicator. -/
def appendImage (s : AppState) (img : GeneratedImage) : AppState :=
  { s with
    imageHistory := img :: s.imageHistory,
    activeImageId := some img.id, isSyncing := true }

/-- State after the leading `setXxx` calls of the edit cycle. -/
def editingState (s : AppState) (editPrompt : String) : AppState :=
  { s with
    isLoading := true, error := none, loadingStep := 2,
    loadingMessage := "Processing Modification: \"" ++ editPrompt
      ++ "\"..." }

/-- Model of `handleGenerate` (App.tsx): `renv` is the outcome of the
research call and `ienv` the outcome of the image-generation call; the
returned list records the network operations the cycle issued. -/
def handleGenerate (s : AppState) (now : Nat)
    (renv : Except String ResearchResult) (ienv : Except String String) :
    AppState × List Call :=
  if s.isLoading then (s, [])
  else if jsTrim s.topic = "" ∧ s.contextSources = [] then
    ({ s with error := some validationMsg }, [])
  else
    match renv with
    | Except.error e =>
      (finallyStep (classifyError (researchingState s) e
        accessDeniedGenerateMsg serviceUnavailableMsg), [Call.research])
    | Except.ok rr =>
      match ienv with
      | Except.error e =>
        (finallyStep (classifyError (designingState (researchingState s) rr)
          e accessDeniedGenerateMsg serviceUnavailableMsg),
         [Call.research, Call.genImage])
      | Except.ok b64 =>
        (finallyStep (appendImage (designingState (researchingState s) rr)
          (genImageOf s now b64)),
         [Call.research, Call.genImage, Call.upload])

/-- Model of `handleEdit` (App.tsx): `eenv` is the outcome of the image
edit call. Note that, unlike `handleGenerate`, the source performs no
`isLoading` guard. -/
def handleEdit (s : AppState) (now : Nat) (editPrompt : String)
    (eenv : Except String String) : AppState × List Call :=
  match s.activeImageId with
  | none => (s, [])
  | some aid =>
    match s.imageHistory.find? (fun img => img.id == aid) with
    | none => (s, [])
    | some cur =>
      match eenv with
      | Except.error e =>
        (finallyStep (classifyError (editingState s editPrompt) e
          accessDeniedEditMsg modificationFailedMsg), [Call.edit])
      | Except.ok b64 =>
        (finallyStep (appendImage (editingState s editPrompt)
          (editImageOf cur now editPrompt b64)), [Call.edit, Call.upload])

/-! ## Cycle runs and fixtures -/

deriving instance DecidableEq for Except

/-- One user-triggered cycle together with the outcomes of the network
calls it would make. -/
inductive CycleInput where
  | gen (now : Nat) (renv : Except String ResearchResult)
      (ienv : Except String String)
  | edit (now : Nat) (editPrompt : String) (eenv : Except String String)
  deriving DecidableEq

/-- Dispatch one cycle to the controller. -/
def runCycle (s : AppState) : CycleInput → AppState × List Call
  | CycleInput.gen now renv ienv => handleGenerate s now renv ienv
  | CycleInput.edit now p eenv => handleEdit s now p eenv

/-- Run a sequence of cycles. -/
def runCycles (s : AppState) : List CycleInput → AppState
  | [] => s
  | i :: t => runCycles (runCycle s i).1 t

/-- A cycle whose network calls all succeed. -/
def isSuccess : CycleInput → Bool
  | CycleInput.gen _ (Except.ok _) (Except.ok _) => true
  | CycleInput.edit _ _ (Except.ok _) => true
  | _ => false

/-- The `Date.now()` value of a cycle. -/
def CycleInput.nowOf : CycleInput → Nat
  | CycleInput.gen n _ _ => n
  | CycleInput.edit n _ _ => n

/-- The image payload a successful cycle produces. -/
def CycleInput.dataOf : CycleInput → Option String
  | CycleInput.gen _ _ (Except.ok b) => some b
  | CycleInput.edit _ _ (Except.ok b) => some b
  | _ => none

/-- Whether a cycle list does not begin with an edit (an edit on an empty
history is a no-op, not a cycle). -/
def startsWithGen : List CycleInput → Bool
  | CycleInput.edit _ _ _ :: _ => false
  | _ => true

/-- Controller states from which a cycle can run: not loading, passing
validation, and with the active image at the head of the history (as every
completed cycle leaves it). -/
def Ready (s : AppState) : Prop :=
  s.isLoading = false ∧ ¬(jsTrim s.topic = "" ∧ s.contextSources = [])
    ∧ ∀ h t, s.imageHistory = h :: t → s.activeImageId = some h.id

/-- Blank controller state (the component's initial `useState` values,
with the API key check resolved positively). -/
def emptyState : AppState :=
  { topic := ""
    activeImageId := none
    complexityLevel := ComplexityLevel.expert
    visualStyle := VisualStyle.standard
    language := "English"
    aspect := "16:9"
    resolution := "1K"
    isLoading := false
    isSyncing := false
    loadingMessage := ""
    loadingStep := 0
    loadingFacts := []
    error := none
    imageHistory := []
    currentSearchResults := []
    contextSources := []
    hasApiKey := true }

/-- Fixture: blank state with a topic entered. -/
def demoState : AppState := { emptyState with topic := "Photosynthesis" }

/-- Fixture history entry. -/
def img1 : GeneratedImage :=
  { id := "1"
    data := "d1"
    prompt := "p1"
    timestamp := 1
    level := ComplexityLevel.expert
    style := VisualStyle.standard
    language := "English"
    aspect := "16:9"
    resolution := "1K" }

/-- Fixture: a state in the middle of a cycle (`isLoading` true) with an
active image present in the history. -/
def loadingState : AppState :=
  { demoState with
    isLoading := true, activeImageId := some "1", imageHistory := [img1] }

/-- Fixture research result. -/
def rrDemo : ResearchResult :=
  { imagePrompt := "a plant diagram"
    facts := ["Fact A", "Fact B"]
    searchResults := [] }

/-- Fixture: a successful generate cycle followed by a successful edit
cycle. -/
def demoInputs : List CycleInput :=
  [CycleInput.gen 1 (Except.ok rrDemo) (Except.ok "img1"),
   CycleInput.edit 2 "bigger labels" (Except.ok "img2")]

/-! ## Theorems -/

theorem jsTruthy_eq_isSome (o : Option String) (h : WfOpt o) :
    jsTruthy o = o.isSome := by
  cases o with
  | none => rfl
  | some s =>
    have hs : s ≠ "" := fun he => h (by rw [he])
    simp [jsTruthy, hs]

/-- C2: For every combination of the optional inputs (override bucket,
override token, env bucket, env token — the latter resolved from the two
accepted variable names first-non-empty-wins), `getGCSConfig` agrees with
the spec's precedence rule: overrides are preferred, `isConfigured` is
true iff a bucket and a token are each resolved from either source, and
`source` is manual / env / none by presence of overrides resp.
environment values. -/
theorem getGCSConfig_matches_spec
    (envBucketName envAccessToken envCredentials localBucket localToken :
      Option String)
    (h1 : WfOpt envBucketName) (h2 : WfOpt envAccessToken)
    (h3 : WfOpt envCredentials) (h4 : WfOpt localBucket)
    (h5 : WfOpt localToken) :
    getGCSConfig envBucketName envAccessToken envCredentials
        localBucket localToken
      = gcsConfigSpec localBucket localToken envBucketName
          (jsOr envAccessToken envCredentials) := by
  rcases envBucketName with _ | b <;>
    rcases envAccessToken with _ | ta <;>
      rcases envCredentials with _ | tc <;>
        rcases localBucket with _ | lb <;>
          rcases localToken with _ | lt <;>
  · have := fun (o : Option String) (h : WfOpt o) => jsTruthy_eq_isSome o h
    simp_all [getGCSConfig, gcsConfigSpec, jsOr, jsOrStr, WfOpt, jsTruthy]

/-- Witness for C2 at a concrete input: an override bucket together with an
environment credential yields a configured result with source manual. -/
theorem getGCSConfig_matches_spec_witness :
    getGCSConfig none none (some "tok") (some "bkt") none
      = gcsConfigSpec (some "bkt") none none (jsOr none (some "tok")) :=
  getGCSConfig_matches_spec none none (some "tok") (some "bkt") none
    (by simp [WfOpt]) (by simp [WfOpt]) (by simp [WfOpt])
    (by simp [WfOpt]) (by simp [WfOpt])

/-- C4: `uploadToGCS` never lets an exception escape to its caller; it
issues no request when the configuration is unresolved and exactly one
request otherwise; and it returns `true` exactly when it is configured and
the upload response has a 2xx status — every non-2xx response or thrown
transport error becomes a caught `false`. -/
theorem uploadToGCS_contained (cfg : GCSConfig) (b64 id : String)
    (env : Except String HttpResponse) :
    (∀ e : String, (uploadToGCS cfg b64 id env).1 ≠ Except.error e)
    ∧ ((uploadToGCS cfg b64 id env).2
        = if cfg.isConfigured then [uploadRequestOf cfg b64 id] else [])
    ∧ ((uploadToGCS cfg b64 id env).1 = Except.ok true
        ↔ cfg.isConfigured = true
          ∧ ∃ r, env = Except.ok r ∧ 200 ≤ r.status ∧ r.status < 300) := by
  cases hcfg : cfg.isConfigured with
  | false => simp [uploadToGCS, hcfg]
  | true =>
    cases env with
    | error e => simp [uploadToGCS, uploadAttempt, hcfg]
    | ok r =>
      by_cases h : 200 ≤ r.status ∧ r.status < 300
      · simp [uploadToGCS, uploadAttempt, hcfg, h, h.1, h.2]
      · simp only [uploadToGCS, uploadAttempt, hcfg, if_neg h]
        refine ⟨by simp, by simp, ?_⟩
        constructor
        · intro hfalse; simp at hfalse
        · rintro ⟨-, r', hr', h1, h2⟩
          have hrr : r = r' := by injection hr'
          subst hrr
          exact absurd ⟨h1, h2⟩ h

/-- Witness for C4 at a concrete input: with a configured bucket and a
transport error, exactly the one expected request is in the trace. -/
theorem uploadToGCS_contained_witness :
    (uploadToGCS cfgDemo "data:image/png;base64,AA" "7"
        (Except.error "network down")).2
      = [uploadRequestOf cfgDemo "data:image/png;base64,AA" "7"] := by
  have h := (uploadToGCS_contained cfgDemo "data:image/png;base64,AA" "7"
    (Except.error "network down")).2.1
  simpa [cfgDemo] using h

/-- C10: the boolean result of `uploadToGCS` conflates skipped and failed
uploads: unconfigured runs return `false` with no request, attempted
non-2xx or thrown uploads also return `false` (with one request), and
`true` is returned only when a request was actually made and answered with
a 2xx status. -/
theorem uploadToGCS_conflates_skip_and_failure (cfg : GCSConfig)
    (b64 id : String) (env : Except String HttpResponse) :
    (cfg.isConfigured = false →
      uploadToGCS cfg b64 id env = (Except.ok false, []))
    ∧ (∀ r : HttpResponse, cfg.isConfigured = true → env = Except.ok r →
        ¬(200 ≤ r.status ∧ r.status < 300) →
        (uploadToGCS cfg b64 id env).1 = Except.ok false
          ∧ (uploadToGCS cfg b64 id env).2.length = 1)
    ∧ (∀ e : String, cfg.isConfigured = true → env = Except.error e →
        (uploadToGCS cfg b64 id env).1 = Except.ok false
          ∧ (uploadToGCS cfg b64 id env).2.length = 1)
    ∧ ((uploadToGCS cfg b64 id env).1 = Except.ok true →
        cfg.isConfigured = true
          ∧ (uploadToGCS cfg b64 id env).2.length = 1
          ∧ ∃ r, env = Except.ok r ∧ 200 ≤ r.status ∧ r.status < 300) := by
  refine ⟨fun hc => by simp [uploadToGCS, hc], ?_, ?_, ?_⟩
  · rintro r hc rfl hst
    simp [uploadToGCS, uploadAttempt, hc, if_neg hst]
  · rintro e hc rfl
    simp [uploadToGCS, uploadAttempt, hc]
  · intro htrue
    cases hc : cfg.isConfigured with
    | false => simp [uploadToGCS, hc] at htrue
    | true =>
      cases env with
      | error e => simp [uploadToGCS, uploadAttempt, hc] at htrue
      | ok r =>
        by_cases hst : 200 ≤ r.status ∧ r.status < 300
        · exact ⟨rfl, by simp [uploadToGCS, uploadAttempt, hc, hst],
            ⟨r, rfl, hst.1, hst.2⟩⟩
        · simp [uploadToGCS, uploadAttempt, hc, if_neg hst] at htrue

/-- Witness for C10 at concrete inputs: a skipped upload and a 403-failed
upload both come back as `false`. -/
theorem uploadToGCS_conflates_witness :
    uploadToGCS cfgNone "d" "1" (Except.ok ⟨204, ""⟩)
        = (Except.ok false, [])
      ∧ (uploadToGCS cfgDemo "d" "1" (Except.ok ⟨403, "denied"⟩)).1
        = Except.ok false :=
  ⟨(uploadToGCS_conflates_skip_and_failure cfgNone "d" "1"
      (Except.ok ⟨204, ""⟩)).1 rfl,
   ((uploadToGCS_conflates_skip_and_failure cfgDemo "d" "1"
      (Except.ok ⟨403, "denied"⟩)).2.1 ⟨403, "denied"⟩ rfl rfl
      (by decide)).1⟩

example : parseFacts "FACTS:\n- a\n- b\n\nIMAGE_PROMPT:\nfoo" = ["a", "b"] := by
  decide

example :
    parseFacts "facts:\n- f1\n- f2\n- f3\n- f4\n- f5\n- f6\n- f7"
      = ["f1", "f2", "f3", "f4", "f5"] := by decide

example : imagePromptOpt "FACTS:\n- a\nIMAGE_PROMPT:\n  a cat  " = some "a cat" := by
  decide

example : imagePromptOpt "FACTS:\n- a\n" = none := by decide

example :
    dedupByUrl [⟨"A", "u"⟩, ⟨"B", "u"⟩, ⟨"C", "v"⟩]
      = [⟨"B", "u"⟩, ⟨"C", "v"⟩] := by decide

theorem fst_updEntry (k : String) (v : SearchResultItem)
    (p : String × SearchResultItem) : (updEntry k v p).1 = p.1 := by
  unfold updEntry
  by_cases h : p.1 == k
  · simp only [h, if_true]
    exact (eq_of_beq h).symm
  · simp [h]

theorem filter_map_pres {α : Type} (f : α → α) (p : α → Bool)
    (hf : ∀ a, p (f a) = p a) (l : List α) :
    (l.map f).filter p = (l.filter p).map f := by
  induction l with
  | nil => rfl
  | cons a t ih =>
    rw [List.map_cons, List.filter_cons, List.filter_cons, hf a]
    cases hpa : p a
    · simpa [hpa] using ih
    · simpa [hpa] using ih

theorem entriesFor_insertAssoc (m : List (String × SearchResultItem))
    (k : String) (v : SearchResultItem) (u : String)
    (h : (entriesFor k m).length ≤ 1) :
    entriesFor u (insertAssoc m k v)
      = if k = u then [(k, v)] else entriesFor u m := by
  unfold insertAssoc
  cases hany : m.any (fun p => p.1 == k) with
  | false =>
    have hnone : entriesFor k m = [] := by
      refine List.filter_eq_nil_iff.mpr fun p hp => ?_
      have := List.any_eq_false.mp hany p hp
      simpa using this
    simp only [hany, Bool.false_eq_true, if_false]
    unfold entriesFor at hnone ⊢
    rw [List.filter_append]
    by_cases hku : k = u
    · subst hku
      rw [hnone]
      simp
    · have : (([(k, v)] : List (String × SearchResultItem)).filter
          (fun p => p.1 == u)) = [] := by
        simp [hku]
      rw [this]
      simp [hku]
  | true =>
    simp only [hany, if_true]
    have hmap : entriesFor u (m.map (updEntry k v))
        = (entriesFor u m).map (updEntry k v) := by
      unfold entriesFor
      exact filter_map_pres (updEntry k v) (fun p => p.1 == u)
        (fun p => by simp [fst_updEntry]) m
    rw [hmap]
    by_cases hku : k = u
    · subst hku
      obtain ⟨q, hq, hqk⟩ := List.any_eq_true.mp hany
      have hne : entriesFor k m ≠ [] := by
        intro hnil
        have : q ∈ entriesFor k m := List.mem_filter.mpr ⟨hq, hqk⟩
        rw [hnil] at this
        exact absurd this (List.not_mem_nil q)
      rcases hel : entriesFor k m with _ | ⟨x, xs⟩
      · exact absurd hel hne
      · have hlen := hel ▸ h
        simp only [List.length_cons] at hlen
        have hxs : xs = [] := List.eq_nil_of_length_eq_zero
          (Nat.le_zero.mp (Nat.le_of_succ_le_succ hlen))
        subst hxs
        have hxmem : x ∈ entriesFor k m := by
          rw [hel]
          exact List.mem_singleton.mpr rfl
        have hx : x.1 == k := (List.mem_filter.mp hxmem).2
        simp [updEntry, hx]
    · have hpt : ∀ p ∈ entriesFor u m, updEntry k v p = p := by
        intro p hp
        have hpu : p.1 == u := (List.mem_filter.mp hp).2
        have : ¬(p.1 == k) = true := by
          intro hk
          exact hku ((eq_of_beq hk).symm.trans (eq_of_beq hpu))
        simp [updEntry, this]
      rw [if_neg hku]
      calc (entriesFor u m).map (updEntry k v)
          = (entriesFor u m).map id := List.map_congr_left hpt
        _ = entriesFor u m := List.map_id _

theorem atMostOne_insertAssoc {m : List (String × SearchResultItem)}
    (k : String) (v : SearchResultItem) (h : AtMostOne m) :
    AtMostOne (insertAssoc m k v) := by
  intro u
  rw [entriesFor_insertAssoc m k v u (h k)]
  by_cases hku : k = u
  · simp [hku]
  · simpa [hku] using h u

theorem urlKeyed_insertAssoc {m : List (String × SearchResultItem)}
    (v : SearchResultItem) (h : UrlKeyed m) :
    UrlKeyed (insertAssoc m v.url v) := by
  unfold insertAssoc
  cases hany : m.any (fun p => p.1 == v.url) with
  | false =>
    simp only [hany, Bool.false_eq_true, if_false]
    intro p hp
    rcases List.mem_append.mp hp with hp | hp
    · exact h p hp
    · rw [List.mem_singleton.mp hp]
  | true =>
    simp only [hany, if_true]
    intro p hp
    obtain ⟨q, hq, hquv⟩ := List.mem_map.mp hp
    by_cases hqk : q.1 == v.url
    · rw [← hquv]
      simp [updEntry, hqk]
    · rw [← hquv]
      simp only [updEntry, hqk, Bool.false_eq_true, if_false]
      exact h q hq

theorem getLast?_cons_char {α : Type} (a : α) (l : List α) :
    (a :: l).getLast? = some (l.getLast?.getD a) := by
  induction l generalizing a with
  | nil => rfl
  | cons b t ih =>
    rw [List.getLast?_cons_cons, ih b]
    simp [ih b]

theorem entriesFor_foldl (l : List SearchResultItem) :
    ∀ (m : List (String × SearchResultItem)), AtMostOne m → ∀ u,
    entriesFor u (l.foldl (fun m i => insertAssoc m i.url i) m)
      = match (l.filter (fun i => i.url == u)).getLast? with
        | none => entriesFor u m
        | some v => [(v.url, v)] := by
  induction l with
  | nil => intro m hm u; rfl
  | cons i t ih =>
    intro m hm u
    rw [List.foldl_cons]
    rw [ih (insertAssoc m i.url i) (atMostOne_insertAssoc i.url i hm) u]
    rw [List.filter_cons]
    cases hiu : (i.url == u) with
    | true =>
      have hiu' : i.url = u := eq_of_beq hiu
      simp only [hiu, if_true]
      rw [getLast?_cons_char]
      cases hfl : (t.filter (fun j => j.url == u)).getLast? with
      | none =>
        simp only [hfl, Option.getD_none]
        rw [entriesFor_insertAssoc m i.url i u (hm i.url)]
        rw [if_pos hiu']
      | some v =>
        simp [hfl]
    | false =>
      have hiu' : i.url ≠ u := fun he => by
        rw [he] at hiu
        simp at hiu
      simp only [hiu, Bool.false_eq_true, if_false]
      cases hfl : (t.filter (fun j => j.url == u)).getLast? with
      | none =>
        simp only [hfl]
        rw [entriesFor_insertAssoc m i.url i u (hm i.url)]
        rw [if_neg hiu']
      | some v =>
        simp [hfl]

theorem atMostOne_nil : AtMostOne [] := by
  intro u
  simp [entriesFor]

theorem atMostOne_buildUrlMap (items : List SearchResultItem) :
    AtMostOne (buildUrlMap items) := by
  unfold buildUrlMap
  generalize hm : ([] : List (String × SearchResultItem)) = m
  have hm0 : AtMostOne m := hm ▸ atMostOne_nil
  clear hm
  induction items generalizing m with
  | nil => exact hm0
  | cons i t ih =>
    rw [List.foldl_cons]
    exact ih _ (atMostOne_insertAssoc i.url i hm0)

theorem urlKeyed_buildUrlMap (items : List SearchResultItem) :
    UrlKeyed (buildUrlMap items) := by
  unfold buildUrlMap
  generalize hm : ([] : List (String × SearchResultItem)) = m
  have hm0 : UrlKeyed m := by
    rw [← hm]
    intro p hp
    exact absurd hp (List.not_mem_nil p)
  clear hm
  induction items generalizing m with
  | nil => exact hm0
  | cons i t ih =>
    rw [List.foldl_cons]
    exact ih _ (urlKeyed_insertAssoc i hm0)

theorem filter_map_snd (m : List (String × SearchResultItem))
    (h : UrlKeyed m) (u : String) :
    (m.map Prod.snd).filter (fun it => it.url == u)
      = (entriesFor u m).map Prod.snd := by
  induction m with
  | nil => rfl
  | cons p t ih =>
    have hp : p.2.url = p.1 := h p (List.mem_cons_self p t)
    have ht : UrlKeyed t := fun q hq => h q (List.mem_cons_of_mem p hq)
    unfold entriesFor
    rw [List.map_cons, List.filter_cons, List.filter_cons, hp]
    cases hpu : (p.1 == u)
    · simpa [hpu] using ih ht
    · simpa [hpu] using ih ht

/-- C3 (amended): `dedupByUrl` keeps exactly one entry per URL occurring in
the input, and the entry kept for a URL is the LAST occurrence with that
URL (JS `Map.set` overwrites the value of an existing key), so its title is
the last occurrence's title. Stated as: the entries of the result with a
given URL are exactly the last input occurrence with that URL. -/
theorem dedupByUrl_keeps_last (items : List SearchResultItem) (u : String) :
    (dedupByUrl items).filter (fun it => it.url == u)
      = ((items.filter (fun it => it.url == u)).getLast?).toList := by
  unfold dedupByUrl
  rw [filter_map_snd _ (urlKeyed_buildUrlMap items) u]
  have h := entriesFor_foldl items [] atMostOne_nil u
  unfold buildUrlMap
  rw [h]
  cases hfl : (items.filter (fun it => it.url == u)).getLast? with
  | none => rfl
  | some v => simp

/-- C3 counterexample: with two entries sharing a URL, the retained entry
is the second occurrence, not the first — the first occurrence's title is
not in the result, refuting first-occurrence-wins. -/
theorem dedupByUrl_not_first_occurrence :
    dedupByUrl [⟨"A", "u"⟩, ⟨"B", "u"⟩] = [⟨"B", "u"⟩]
      ∧ ¬((⟨"A", "u"⟩ : SearchResultItem) ∈
          dedupByUrl [⟨"A", "u"⟩, ⟨"B", "u"⟩]) := by
  decide

/-! ## C6: facts parsing -/

theorem parseFacts_le_five (t : String) : (parseFacts t).length ≤ 5 := by
  unfold parseFacts
  rw [List.length_map]
  exact List.length_take_le 5 _

theorem parseFacts_no_empty (t : String) :
    ∀ f ∈ parseFacts t, ¬(f = "") := by
  unfold parseFacts
  intro f hf
  obtain ⟨l, hl, rfl⟩ := List.mem_map.mp hf
  have hl' : l ∈ ((factsLines t).map bulletOf).filter
      (fun f => 0 < f.length) := List.take_subset _ _ hl
  have hpos := List.of_mem_filter hl'
  intro he
  have hnil : l = [] := by
    have := congrArg String.data he
    simpa using this
  rw [hnil] at hpos
  simp at hpos

/-- C6: a response whose trimmed `FACTS:` section consists of 7 non-empty
bullet lines parses to exactly the first 5 lines, in order, dash-stripped
and trimmed; and for every response the parsed facts never exceed 5
entries and contain no empty strings. -/
theorem parseFacts_spec (text : String) :
    ((factsLines text).length = 7 →
      (∀ l ∈ factsLines text, bulletOf l ≠ []) →
      parseFacts text
          = ((factsLines text).take 5).map (fun l => String.mk (bulletOf l))
        ∧ (parseFacts text).length = 5)
    ∧ (parseFacts text).length ≤ 5
    ∧ ∀ f ∈ parseFacts text, ¬(f = "") := by
  refine ⟨fun h7 hb => ?_, parseFacts_le_five text, parseFacts_no_empty text⟩
  have hfilter : ((factsLines text).map bulletOf).filter
      (fun f => 0 < f.length) = (factsLines text).map bulletOf := by
    rw [List.filter_eq_self]
    intro a ha
    obtain ⟨l, hl, rfl⟩ := List.mem_map.mp ha
    simpa [List.length_pos] using hb l hl
  constructor
  · unfold parseFacts
    rw [hfilter, ← List.map_take, List.map_map]
    rfl
  · unfold parseFacts
    rw [hfilter, ← List.map_take, List.map_map, List.length_map,
      List.length_take, h7]
    decide

/-- Witness for C6 at a concrete 7-bullet response. -/
theorem parseFacts_spec_witness :
    parseFacts factsDemoText
        = ((factsLines factsDemoText).take 5).map
            (fun l => String.mk (bulletOf l))
      ∧ (parseFacts factsDemoText).length = 5 :=
  (parseFacts_spec factsDemoText).1 (by decide) (by decide)

/-- C7: when a response has no `IMAGE_PROMPT:` section, the returned image
prompt is the synthesized fallback built from the topic and the level and
style instructions, and it contains the original topic string. -/
theorem parseImagePrompt_fallback (text topic : String)
    (level : ComplexityLevel) (style : VisualStyle)
    (h : imagePromptOpt text = none) :
    parseImagePrompt text topic level style
        = fallbackPrompt topic (getLevelInstruction level)
            (getStyleInstruction style)
      ∧ containsStr (parseImagePrompt text topic level style) topic := by
  have heq : parseImagePrompt text topic level style
      = fallbackPrompt topic (getLevelInstruction level)
          (getStyleInstruction style) := by
    unfold parseImagePrompt
    rw [h]
  refine ⟨heq, "Create a detailed infographic about ",
    ". " ++ getLevelInstruction level ++ " " ++ getStyleInstruction style, ?_⟩
  rw [heq]
  unfold fallbackPrompt
  simp [String.append_assoc]

/-- Witness for C7 at a concrete response lacking `IMAGE_PROMPT:`. -/
theorem parseImagePrompt_fallback_witness :
    parseImagePrompt "FACTS:\n- a" "Cats" ComplexityLevel.expert
          VisualStyle.standard
        = fallbackPrompt "Cats"
            (getLevelInstruction ComplexityLevel.expert)
            (getStyleInstruction VisualStyle.standard)
      ∧ containsStr (parseImagePrompt "FACTS:\n- a" "Cats"
          ComplexityLevel.expert VisualStyle.standard) "Cats" :=
  parseImagePrompt_fallback "FACTS:\n- a" "Cats" ComplexityLevel.expert
    VisualStyle.standard (by decide)

/-! ## Controller step lemmas -/

theorem classifyError_imageHistory (s : AppState) (msg a g : String) :
    (classifyError s msg a g).imageHistory = s.imageHistory := by
  unfold classifyError
  split <;> rfl

theorem classifyError_error_isSome (s : AppState) (msg a g : String) :
    (classifyError s msg a g).error.isSome = true := by
  unfold classifyError
  split <;> rfl

theorem handleGenerate_success_fields (s : AppState) (now : Nat)
    (rr : ResearchResult) (b64 : String) (hl : s.isLoading = false)
    (hv : ¬(jsTrim s.topic = "" ∧ s.contextSources = [])) :
    (handleGenerate s now (Except.ok rr) (Except.ok b64)).1.imageHistory
        = genImageOf s now b64 :: s.imageHistory
      ∧ (handleGenerate s now (Except.ok rr) (Except.ok b64)).1.activeImageId
        = some (genImageOf s now b64).id
      ∧ (handleGenerate s now (Except.ok rr) (Except.ok b64)).1.error = none
      ∧ (handleGenerate s now (Except.ok rr) (Except.ok b64)).1.isLoading
        = false
      ∧ (handleGenerate s now (Except.ok rr) (Except.ok b64)).1.topic
        = s.topic
      ∧ (handleGenerate s now (Except.ok rr) (Except.ok b64)).1.contextSources
        = s.contextSources
      ∧ (handleGenerate s now (Except.ok rr) (Except.ok b64)).2
        = [Call.research, Call.genImage, Call.upload] := by
  simp [handleGenerate, hl, hv, finallyStep, appendImage, designingState,
    researchingState]

theorem handleGenerate_research_error_fields (s : AppState) (now : Nat)
    (e : String) (ienv : Except String String) (hl : s.isLoading = false)
    (hv : ¬(jsTrim s.topic = "" ∧ s.contextSources = [])) :
    (handleGenerate s now (Except.error e) ienv).1.imageHistory
        = s.imageHistory
      ∧ (handleGenerate s now (Except.error e) ienv).1.error.isSome = true
      ∧ (handleGenerate s now (Except.error e) ienv).2 = [Call.research] := by
  refine ⟨?_, ?_, ?_⟩ <;>
    simp [handleGenerate, hl, hv, finallyStep, classifyError_imageHistory,
      classifyError_error_isSome, classifyError, researchingState] <;>
    split <;> simp

theorem handleGenerate_image_error_fields (s : AppState) (now : Nat)
    (rr : ResearchResult) (e : String) (hl : s.isLoading = false)
    (hv : ¬(jsTrim s.topic = "" ∧ s.contextSources = [])) :
    (handleGenerate s now (Except.ok rr) (Except.error e)).1.imageHistory
        = s.imageHistory
      ∧ (handleGenerate s now (Except.ok rr)
          (Except.error e)).1.error.isSome = true
      ∧ (handleGenerate s now (Except.ok rr) (Except.error e)).2
        = [Call.research, Call.genImage] := by
  refine ⟨?_, ?_, ?_⟩ <;>
    simp [handleGenerate, hl, hv, finallyStep, classifyError,
      designingState, researchingState] <;>
    split <;> simp

theorem handleEdit_success_fields (s : AppState) (now : Nat)
    (p b64 : String) (h : GeneratedImage) (tl : List GeneratedImage)
    (hh : s.imageHistory = h :: tl) (ha : s.activeImageId = some h.id) :
    (handleEdit s now p (Except.ok b64)).1.imageHistory
        = editImageOf h now p b64 :: s.imageHistory
      ∧ (handleEdit s now p (Except.ok b64)).1.activeImageId
        = some (editImageOf h now p b64).id
      ∧ (handleEdit s now p (Except.ok b64)).1.error = none
      ∧ (handleEdit s now p (Except.ok b64)).1.isLoading = false
      ∧ (handleEdit s now p (Except.ok b64)).1.topic = s.topic
      ∧ (handleEdit s now p (Except.ok b64)).1.contextSources
        = s.contextSources
      ∧ (handleEdit s now p (Except.ok b64)).2
        = [Call.edit, Call.upload] := by
  have hfind : s.imageHistory.find? (fun img => img.id == h.id) = some h := by
    rw [hh]
    simp [List.find?]
  simp [handleEdit, ha, hfind, finallyStep, appendImage, editingState]

theorem handleEdit_error_fields (s : AppState) (now : Nat) (p e : String)
    (aid : String) (cur : GeneratedImage) (ha : s.activeImageId = some aid)
    (hf : s.imageHistory.find? (fun img => img.id == aid) = some cur) :
    (handleEdit s now p (Except.error e)).1.imageHistory = s.imageHistory
      ∧ (handleEdit s now p (Except.error e)).1.error.isSome = true
      ∧ (handleEdit s now p (Except.error e)).2 = [Call.edit] := by
  refine ⟨?_, ?_, ?_⟩ <;>
    simp [handleEdit, ha, hf, finallyStep, classifyError, editingState] <;>
    split <;> simp

theorem runCycle_success (s : AppState) (i : CycleInput) (hs : Ready s)
    (hi : isSuccess i = true)
    (hne : s.imageHistory ≠ [] ∨ startsWithGen [i] = true) :
    ∃ img : GeneratedImage,
      (runCycle s i).1.imageHistory = img :: s.imageHistory
        ∧ (runCycle s i).1.activeImageId = some img.id
        ∧ img.id = toString i.nowOf
        ∧ some img.data = i.dataOf
        ∧ Ready (runCycle s i).1 := by
  obtain ⟨hl, hv, hact⟩ := hs
  cases i with
  | gen now renv ienv =>
    cases renv with
    | error e => simp [isSuccess] at hi
    | ok rr =>
      cases ienv with
      | error e => simp [isSuccess] at hi
      | ok b64 =>
        simp only [runCycle]
        obtain ⟨h1, h2, h3, h4, h5, h6, h7⟩ :=
          handleGenerate_success_fields s now rr b64 hl hv
        refine ⟨genImageOf s now b64, h1, h2, rfl, rfl, h4, ?_, ?_⟩
        · rw [h5, h6]
          exact hv
        · intro hx tx heq
          rw [h1] at heq
          injection heq with he1 he2
          rw [← he1]
          exact h2
  | edit now p eenv =>
    cases eenv with
    | error e => simp [isSuccess] at hi
    | ok b64 =>
      have hne' : s.imageHistory ≠ [] := by
        rcases hne with h | h
        · exact h
        · simp [startsWithGen] at h
      obtain ⟨h, tl, hh⟩ := List.exists_cons_of_ne_nil hne'
      have ha := hact h tl hh
      simp only [runCycle]
      obtain ⟨h1, h2, h3, h4, h5, h6, h7⟩ :=
        handleEdit_success_fields s now p b64 h tl hh ha
      refine ⟨editImageOf h now p b64, h1, h2, rfl, rfl, h4, ?_, ?_⟩
      · rw [h5, h6]
        exact hv
      · intro hx tx heq
        rw [h1] at heq
        injection heq with he1 he2
        rw [← he1]
        exact h2

theorem startsWithGen_cons (i : CycleInput) (t : List CycleInput) :
    startsWithGen (i :: t) = startsWithGen [i] := by
  cases i <;> rfl

theorem runCycles_spec (inputs : List CycleInput) : ∀ s : AppState,
    Ready s → (∀ i ∈ inputs, isSuccess i = true) →
    (s.imageHistory ≠ [] ∨ startsWithGen inputs = true) →
    Ready (runCycles s inputs)
      ∧ (runCycles s inputs).imageHistory.length
        = s.imageHistory.length + inputs.length
      ∧ ∀ li, inputs.getLast? = some li →
          ∃ img, (runCycles s inputs).imageHistory.head? = some img
            ∧ (runCycles s inputs).activeImageId = some img.id
            ∧ img.id = toString li.nowOf
            ∧ some img.data = li.dataOf := by
  induction inputs with
  | nil =>
    intro s hs _ _
    exact ⟨hs, by simp [runCycles], by intro li hli; simp at hli⟩
  | cons i t ih =>
    intro s hs hsuc hfirst
    have hi : isSuccess i = true := hsuc i (List.mem_cons_self i t)
    have hfirst' : s.imageHistory ≠ [] ∨ startsWithGen [i] = true := by
      rcases hfirst with h | h
      · exact Or.inl h
      · exact Or.inr (by rw [← startsWithGen_cons i t]; exact h)
    obtain ⟨img, hhist, hactive, hid, hdata, hready⟩ :=
      runCycle_success s i hs hi hfirst'
    have hsuc' : ∀ j ∈ t, isSuccess j = true :=
      fun j hj => hsuc j (List.mem_cons_of_mem i hj)
    have hne' : (runCycle s i).1.imageHistory ≠ [] := by
      rw [hhist]
      exact List.cons_ne_nil _ _
    have hrun := ih (runCycle s i).1 hready hsuc' (Or.inl hne')
    have hcons : runCycles s (i :: t) = runCycles (runCycle s i).1 t := rfl
    refine ⟨hcons ▸ hrun.1, ?_, ?_⟩
    · rw [hcons, hrun.2.1, hhist]
      simp [List.length_cons]
      omega
    · intro li hli
      cases t with
      | nil =>
        have hlast : i = li := by
          simpa using hli
        subst hlast
        refine ⟨img, ?_, ?_, hid, hdata⟩
        · rw [hcons]
          simp only [runCycles]
          rw [hhist]
          rfl
        · rw [hcons]
          simpa [runCycles] using hactive
      | cons j t2 =>
        have hli' : (j :: t2).getLast? = some li := by
          simpa [List.getLast?_cons_cons] using hli
        obtain ⟨img2, hh2, ha2, hid2, hd2⟩ := hrun.2.2 li hli'
        exact ⟨img2, hcons ▸ hh2, hcons ▸ ha2, hid2, hd2⟩

/-! ## Claim theorems for the controller -/

/-- C1: a successful generate or edit cycle prepends exactly one new
history entry and marks it active; a failed research, generation or edit
step leaves the history unchanged and surfaces an error; and after N
successful cycles from an empty history the history has length N and its
first element is the image produced by the last cycle, still marked
active. -/
theorem history_cycle_invariant :
    (∀ (s : AppState) (now : Nat) (rr : ResearchResult) (b64 : String),
      s.isLoading = false → ¬(jsTrim s.topic = "" ∧ s.contextSources = []) →
      (handleGenerate s now (Except.ok rr) (Except.ok b64)).1.imageHistory
          = genImageOf s now b64 :: s.imageHistory
        ∧ (handleGenerate s now (Except.ok rr)
            (Except.ok b64)).1.activeImageId = some (genImageOf s now b64).id
        ∧ (handleGenerate s now (Except.ok rr) (Except.ok b64)).1.error
          = none)
    ∧ (∀ (s : AppState) (now : Nat) (e : String)
        (ienv : Except String String),
        s.isLoading = false → ¬(jsTrim s.topic = "" ∧ s.contextSources = []) →
        (handleGenerate s now (Except.error e) ienv).1.imageHistory
            = s.imageHistory
          ∧ (handleGenerate s now (Except.error e) ienv).1.error.isSome
            = true)
    ∧ (∀ (s : AppState) (now : Nat) (rr : ResearchResult) (e : String),
        s.isLoading = false → ¬(jsTrim s.topic = "" ∧ s.contextSources = []) →
        (handleGenerate s now (Except.ok rr)
            (Except.error e)).1.imageHistory = s.imageHistory
          ∧ (handleGenerate s now (Except.ok rr)
              (Except.error e)).1.error.isSome = true)
    ∧ (∀ (s : AppState) (now : Nat) (p b64 : String) (h : GeneratedImage)
        (tl : List GeneratedImage),
        s.imageHistory = h :: tl → s.activeImageId = some h.id →
        (handleEdit s now p (Except.ok b64)).1.imageHistory
            = editImageOf h now p b64 :: s.imageHistory
          ∧ (handleEdit s now p (Except.ok b64)).1.activeImageId
            = some (editImageOf h now p b64).id
          ∧ (handleEdit s now p (Except.ok b64)).1.error = none)
    ∧ (∀ (s : AppState) (now : Nat) (p e aid : String)
        (cur : GeneratedImage),
        s.activeImageId = some aid →
        s.imageHistory.find? (fun img => img.id == aid) = some cur →
        (handleEdit s now p (Except.error e)).1.imageHistory = s.imageHistory
          ∧ (handleEdit s now p (Except.error e)).1.error.isSome = true)
    ∧ (∀ (s0 : AppState) (inputs : List CycleInput),
        s0.isLoading = false →
        ¬(jsTrim s0.topic = "" ∧ s0.contextSources = []) →
        s0.imageHistory = [] →
        (∀ i ∈ inputs, isSuccess i = true) →
        startsWithGen inputs = true →
        (runCycles s0 inputs).imageHistory.length = inputs.length
          ∧ ∀ li, inputs.getLast? = some li →
              ∃ img, (runCycles s0 inputs).imageHistory.head? = some img
                ∧ (runCycles s0 inputs).activeImageId = some img.id
                ∧ img.id = toString li.nowOf
                ∧ some img.data = li.dataOf) := by
  refine ⟨?_, ?_, ?_, ?_, ?_, ?_⟩
  · intro s now rr b64 hl hv
    obtain ⟨h1, h2, h3, -⟩ := handleGenerate_success_fields s now rr b64 hl hv
    exact ⟨h1, h2, h3⟩
  · intro s now e ienv hl hv
    obtain ⟨h1, h2, -⟩ :=
      handleGenerate_research_error_fields s now e ienv hl hv
    exact ⟨h1, h2⟩
  · intro s now rr e hl hv
    obtain ⟨h1, h2, -⟩ := handleGenerate_image_error_fields s now rr e hl hv
    exact ⟨h1, h2⟩
  · intro s now p b64 h tl hh ha
    obtain ⟨h1, h2, h3, -⟩ := handleEdit_success_fields s now p b64 h tl hh ha
    exact ⟨h1, h2, h3⟩
  · intro s now p e aid cur ha hf
    obtain ⟨h1, h2, -⟩ := handleEdit_error_fields s now p e aid cur ha hf
    exact ⟨h1, h2⟩
  · intro s0 inputs hl hv hh0 hsuc hfirst
    have hready : Ready s0 := by
      refine ⟨hl, hv, ?_⟩
      intro h t heq
      rw [hh0] at heq
      exact absurd heq (List.noConfusion)
    have hrun := runCycles_spec inputs s0 hready hsuc (Or.inr hfirst)
    refine ⟨?_, hrun.2.2⟩
    rw [hrun.2.1, hh0]
    simp

/-- Witness for C1: a successful generate cycle followed by a successful
edit cycle from the blank state yields a history of length 2 with the
edit's image active at the front. -/
theorem history_cycle_invariant_witness :
    (runCycles demoState demoInputs).imageHistory.length = 2
      ∧ (runCycles demoState demoInputs).activeImageId = some "2" := by
  have h := history_cycle_invariant.2.2.2.2.2 demoState demoInputs rfl
    (by decide) rfl (by decide) rfl
  obtain ⟨img, hh, hact, hid, hd⟩ := h.2
    (CycleInput.edit 2 "bigger labels" (Except.ok "img2")) (by decide)
  refine ⟨by simpa using h.1, ?_⟩
  rw [hact, hid]
  rfl

/-- C5: with the loading flag down, an empty (or whitespace-only) topic
and no context sources, `handleGenerate` rejects before any network call:
it only sets the validation error message, leaving loading false and the
history and all other state unchanged. -/
theorem handleGenerate_rejects_empty (s : AppState) (now : Nat)
    (renv : Except String ResearchResult) (ienv : Except String String)
    (hl : s.isLoading = false) (ht : jsTrim s.topic = "")
    (hc : s.contextSources = []) :
    handleGenerate s now renv ienv
        = ({ s with error := some validationMsg }, [])
      ∧ (handleGenerate s now renv ienv).1.isLoading = false
      ∧ (handleGenerate s now renv ienv).1.imageHistory = s.imageHistory := by
  have heq : handleGenerate s now renv ienv
      = ({ s with error := some validationMsg }, []) := by
    simp [handleGenerate, hl, ht, hc]
  exact ⟨heq, by rw [heq]; exact hl, by rw [heq]⟩

/-- Witness for C5 at a whitespace-only topic with no sources. -/
theorem handleGenerate_rejects_empty_witness :
    handleGenerate { emptyState with topic := "   " } 3
        (Except.error "never called") (Except.error "never called")
        = ({ { emptyState with topic := "   " } with
            error := some validationMsg }, [])
      ∧ (handleGenerate { emptyState with topic := "   " } 3
          (Except.error "never called")
          (Except.error "never called")).1.isLoading = false
      ∧ (handleGenerate { emptyState with topic := "   " } 3
          (Except.error "never called")
          (Except.error "never called")).1.imageHistory
        = ({ emptyState with topic := "   " } : AppState).imageHistory :=
  handleGenerate_rejects_empty { emptyState with topic := "   " } 3
    (Except.error "never called") (Except.error "never called")
    rfl (by decide) rfl

/-- C8 counterexample: an error whose message indicates a 401-style access
failure ("HTTP 401 Unauthorized") is NOT classified as an entitlement
failure — the controller sets the generic service-unavailable message and
leaves the has-credentials flag untouched, contradicting the claim that
401-style messages are treated as access denials. -/
theorem err401_not_entitlement :
    (handleGenerate demoState 5 (Except.error "HTTP 401 Unauthorized")
        (Except.error "x")).1.error = some serviceUnavailableMsg
      ∧ (handleGenerate demoState 5 (Except.error "HTTP 401 Unauthorized")
          (Except.error "x")).1.hasApiKey = true
      ∧ demoState.hasApiKey = true
      ∧ isEntitlementMsg "HTTP 401 Unauthorized" = false := by
  decide

/-- C8 (amended): an error is classified as an entitlement failure iff its
message is non-empty and contains "404", "403" or the phrase "Requested
entity was not found" (a 401-only message is NOT so classified); in that
case the access-denied message is set and the has-credentials flag is
reset, while every other error yields only the generic message and leaves
the flag unchanged — in both the generate and the edit cycle. -/
theorem errorClassification (s : AppState) (now : Nat) (msg : String)
    (rr : ResearchResult) (p aid : String) (cur : GeneratedImage)
    (hl : s.isLoading = false)
    (hv : ¬(jsTrim s.topic = "" ∧ s.contextSources = [])) :
    (isEntitlementMsg msg = true
      ↔ ¬msg = "" ∧ (strIncludes msg "Requested entity was not found" = true
          ∨ strIncludes msg "404" = true ∨ strIncludes msg "403" = true))
    ∧ (∀ ienv, isEntitlementMsg msg = true →
        (handleGenerate s now (Except.error msg) ienv).1.error
            = some accessDeniedGenerateMsg
          ∧ (handleGenerate s now (Except.error msg) ienv).1.hasApiKey
            = false)
    ∧ (∀ ienv, isEntitlementMsg msg = false →
        (handleGenerate s now (Except.error msg) ienv).1.error
            = some serviceUnavailableMsg
          ∧ (handleGenerate s now (Except.error msg) ienv).1.hasApiKey
            = s.hasApiKey)
    ∧ (isEntitlementMsg msg = true →
        (handleGenerate s now (Except.ok rr) (Except.error msg)).1.error
            = some accessDeniedGenerateMsg
          ∧ (handleGenerate s now (Except.ok rr)
              (Except.error msg)).1.hasApiKey = false)
    ∧ (isEntitlementMsg msg = false →
        (handleGenerate s now (Except.ok rr) (Except.error msg)).1.error
            = some serviceUnavailableMsg
          ∧ (handleGenerate s now (Except.ok rr)
              (Except.error msg)).1.hasApiKey = s.hasApiKey)
    ∧ (s.activeImageId = some aid →
        s.imageHistory.find? (fun img => img.id == aid) = some cur →
        (isEntitlementMsg msg = true →
          (handleEdit s now p (Except.error msg)).1.error
              = some accessDeniedEditMsg
            ∧ (handleEdit s now p (Except.error msg)).1.hasApiKey = false)
        ∧ (isEntitlementMsg msg = false →
          (handleEdit s now p (Except.error msg)).1.error
              = some modificationFailedMsg
            ∧ (handleEdit s now p (Except.error msg)).1.hasApiKey
              = s.hasApiKey)) := by
  refine ⟨?_, ?_, ?_, ?_, ?_, ?_⟩
  · simp [isEntitlementMsg, Bool.and_eq_true, Bool.or_eq_true]
    tauto
  · intro ienv hE
    simp [handleGenerate, hl, hv, finallyStep, classifyError, hE,
      researchingState]
  · intro ienv hE
    simp [handleGenerate, hl, hv, finallyStep, classifyError, hE,
      researchingState]
  · intro hE
    simp [handleGenerate, hl, hv, finallyStep, classifyError, hE,
      designingState, researchingState]
  · intro hE
    simp [handleGenerate, hl, hv, finallyStep, classifyError, hE,
      designingState, researchingState]
  · intro ha hf
    constructor
    · intro hE
      simp [handleEdit, ha, hf, finallyStep, classifyError, hE,
        editingState]
    · intro hE
      simp [handleEdit, ha, hf, finallyStep, classifyError, hE,
        editingState]

/-- Witness for C8 at a concrete 403 message. -/
theorem errorClassification_witness :
    (handleGenerate demoState 5 (Except.error "got 403 from server")
        (Except.error "x")).1.error = some accessDeniedGenerateMsg
      ∧ (handleGenerate demoState 5 (Except.error "got 403 from server")
          (Except.error "x")).1.hasApiKey = false :=
  (errorClassification demoState 5 "got 403 from server"
      rrDemo "p" "1" img1 rfl (by decide)).2.1
    (Except.error "x") (by decide)

/-- C9 counterexample: with a cycle in flight (`isLoading = true`) and an
active image, `handleEdit` is not ignored — it issues the edit and upload
calls and changes the state (the history grows). -/
theorem handleEdit_reentrant_not_ignored :
    loadingState.isLoading = true
      ∧ (handleEdit loadingState 2 "add a label" (Except.ok "d2")).2
        = [Call.edit, Call.upload]
      ∧ (handleEdit loadingState 2 "add a label"
          (Except.ok "d2")).1.imageHistory.length = 2
      ∧ (handleEdit loadingState 2 "add a label" (Except.ok "d2")).1
        ≠ loadingState := by
  decide

/-- C9 (amended): a re-entrant `handleGenerate` trigger while a cycle is
in flight is ignored — no network call, no state change; `handleEdit`,
however, has no loading-flag guard: there are loading states in which an
edit trigger issues network calls. -/
theorem reentrant_generate_ignored (s : AppState) (now : Nat)
    (renv : Except String ResearchResult) (ienv : Except String String)
    (hl : s.isLoading = true) :
    handleGenerate s now renv ienv = (s, [])
      ∧ ∃ (s2 : AppState) (n : Nat) (p : String)
          (env : Except String String),
          s2.isLoading = true ∧ (handleEdit s2 n p env).2 ≠ [] := by
  refine ⟨by simp [handleGenerate, hl], loadingState, 2, "x",
    Except.ok "d2", rfl, by decide⟩

/-- Witness for C9 at a concrete loading state. -/
theorem reentrant_generate_ignored_witness :
    handleGenerate loadingState 5 (Except.error "boom")
        (Except.error "boom2") = (loadingState, [])
      ∧ ∃ (s2 : AppState) (n : Nat) (p : String)
          (env : Except String String),
          s2.isLoading = true ∧ (handleEdit s2 n p env).2 ≠ [] :=
  reentrant_generate_ignored loadingState 5 (Except.error "boom")
    (Except.error "boom2") rfl
